import Mathlib

/-!
Shallow embedding of kingshard backend/db.go: a bounded connection pool
(Open / PopConn / PushConn / closeConn / tryReuse / Close and the
BackendConn handle), together with proofs about the claims of the spec.

Go channels of capacity maxConnNum are embedded as FIFO lists
(receive from the front, send at the back) inside an Option: a nil
channel is none.  A blocking channel send that can never complete in a
sequential execution (send on a nil channel, or on a full channel with
no receiver) is modelled by the Outcome.blocked result.  Fallible calls
into the external mysql session are parametrized by explicit Bool
success flags; every backend call an execution performs is recorded in
a List Effect so that the absence of a call is observable.
-/

namespace Kingshard

/-- mysql.DEFAULT_CHARSET, the pool's default charset (external constant;
the source's comment at tryReuse says the default is utf8). -/
def DEFAULT_CHARSET : String := "utf8"

/-- InitConnCount constant from db.go. -/
def InitConnCount : Int := 16

/-- DefaultMaxConnNum constant from db.go. -/
def DefaultMaxConnNum : Int := 1024

/-- Up state constant (iota = 0). -/
def Up : Int := 0

/-- Down state constant (iota = 1). -/
def Down : Int := 1

/-- Unknown state constant (iota = 2). -/
def Unknown : Int := 2

/-- A session object (mysql.Conn).  The session capability is external to
backend/db.go; the fields embed exactly what db.go observes of it:
IsInTransaction, IsAutoCommit, GetCharset, the pkgErr protocol-error
marker, and whether the underlying connection is live.  The id field
models Go pointer identity of the *Conn object: two conns with the same
id are the same object. -/
structure Conn where
  id : Nat
  connected : Bool
  inTransaction : Bool
  autoCommit : Bool
  charset : String
  pkgErr : Bool
deriving DecidableEq, Repr

/-- co.Close() on a session: the underlying connection is torn down; the
object (and its observable fields) remain. -/
def Conn.CloseSess (c : Conn) : Conn := { c with connected := false }

/-- co.Connect(addr, user, password, db) succeeding on an existing object.
Modelled from the spec: the session capability is external (mysql
package, not under src/); per the spec a freshly connected session
starts clean: connected, no open transaction, autocommit enabled,
default charset, no pending protocol error.  The object identity (id)
is preserved: Connect re-dials on the same *Conn. -/
def Conn.ConnectFresh (c : Conn) : Conn :=
  { c with connected := true, inTransaction := false, autoCommit := true,
           charset := DEFAULT_CHARSET, pkgErr := false }

/-- The session produced by a successful db.newConn(): a freshly connected
session object with a new identity i. -/
def freshConn (i : Nat) : Conn :=
  { id := i, connected := true, inTransaction := false, autoCommit := true,
    charset := DEFAULT_CHARSET, pkgErr := false }

/-- new(Conn): the zero-valued placeholder object that Open sends into
idleConns for each reserved slot. -/
def zeroConn (i : Nat) : Conn :=
  { id := i, connected := false, inTransaction := false, autoCommit := false,
    charset := "", pkgErr := false }

/-- The backend calls the pool makes on sessions; recording them makes it
observable which operations an execution performed (and, for the
sanitation claims, which it did not). -/
inductive Effect where
  | connect (id : Nat)
  | closeSess (id : Nat)
  | rollback (id : Nat)
  | execAutocommit (id : Nat)
  | setCharset (id : Nat) (cs : String)
deriving DecidableEq, Repr

/-- The errors of db.go's taxonomy (core/errors package) plus the errors
that bubble up from the external session capability. -/
inductive KError where
  | ErrDatabaseClose
  | ErrDBPoolInit
  | ErrConnIsNil
  | ErrConnect
  | ErrRollback
  | ErrExec
  | ErrSetCharset
deriving DecidableEq, Repr

/-- The outcome of running an operation in a sequential execution: it
either finishes with a value, or its goroutine blocks forever (a send
on a nil Go channel, or a send on a full channel with no concurrent
receiver). -/
inductive Outcome (α : Type) where
  | done (a : α)
  | blocked
deriving DecidableEq, Repr

/-- The pool (struct DB of db.go).  idleConns and cacheConns are the two
channels of capacity maxConnNum; none embeds a nil channel (the
detached, closed state).  getConns / getCacheConns / getIdleConns are
plain field reads in this sequential embedding. -/
structure DB where
  addr : String
  user : String
  password : String
  dbName : String
  state : Int
  maxConnNum : Int
  InitConnNum : Int
  idleConns : Option (List Conn)
  cacheConns : Option (List Conn)
  checkConn : Option Conn
deriving DecidableEq, Repr

/-- db.closeConn(co): if co is non-nil, close the session and perform a
blocking send of it into idleConns.  In this sequential embedding a
send on a nil channel, or on a full channel, blocks forever (the source
has no nil-check and no select around this send). -/
def closeConn (db : DB) (co : Option Conn) : Outcome (DB × List Effect) :=
  match co with
  | none => Outcome.done (db, [])
  | some c =>
    match db.idleConns with
    | none => Outcome.blocked
    | some idle =>
      if idle.length < db.maxConnNum.toNat then
        Outcome.done ({ db with idleConns := some (idle ++ [Conn.CloseSess c]) },
          [Effect.closeSess c.id])
      else Outcome.blocked

/-- db.tryReuse(co): roll back an open transaction, re-enable autocommit,
reset a non-default charset, in that order; any step's failure aborts.
The three Bool flags say whether the corresponding backend call, if
made, succeeds.  Returns the session, the backend mutation calls
performed, and the error (none on success). -/
def tryReuse (co : Conn) (rOk eOk sOk : Bool) : Conn × List Effect × Option KError :=
  if co.inTransaction then
    if rOk then
      tryReuseTail { co with inTransaction := false } eOk sOk [Effect.rollback co.id]
    else (co, [Effect.rollback co.id], some KError.ErrRollback)
  else
    tryReuseTail co eOk sOk []
where
  /-- steps 2 and 3 of tryReuse (autocommit, charset). -/
  tryReuseTail (co : Conn) (eOk sOk : Bool) (acc : List Effect) :
      Conn × List Effect × Option KError :=
    if !co.autoCommit then
      if eOk then
        tryReuseCharset { co with autoCommit := true } sOk (acc ++ [Effect.execAutocommit co.id])
      else (co, acc ++ [Effect.execAutocommit co.id], some KError.ErrExec)
    else
      tryReuseCharset co sOk acc
  /-- step 3 of tryReuse (charset reset). -/
  tryReuseCharset (co : Conn) (sOk : Bool) (acc : List Effect) :
      Conn × List Effect × Option KError :=
    if co.charset ≠ DEFAULT_CHARSET then
      if sOk then
        ({ co with charset := DEFAULT_CHARSET },
          acc ++ [Effect.setCharset co.id DEFAULT_CHARSET], none)
      else (co, acc ++ [Effect.setCharset co.id DEFAULT_CHARSET], some KError.ErrSetCharset)
    else (co, acc, none)

/-- db.PopConn(): acquire a session.  Fails with ErrDatabaseClose when a
channel is nil (pool closed).  Fast path: if cacheConns is non-empty,
receive from it and run tryReuse on the result (discarding via
closeConn on sanitation failure).  Otherwise the source selects on
idleConns and cacheConns; in a sequential execution cacheConns stays
empty, so the select yields the idle (reserved-slot) branch when
possible and blocks when both are empty.  A promoted reserved slot is
connected and returned without tryReuse.  The connectOk flag says
whether co.Connect succeeds. -/
def PopConn (db : DB) (connectOk rOk eOk sOk : Bool) :
    Outcome (DB × List Effect × Except KError Conn) :=
  match db.cacheConns, db.idleConns with
  | none, _ => Outcome.done (db, [], Except.error KError.ErrDatabaseClose)
  | some _, none => Outcome.done (db, [], Except.error KError.ErrDatabaseClose)
  | some cache, some idle =>
    match cache with
    | c :: rest =>
      let db1 := { db with cacheConns := some rest }
      match tryReuse c rOk eOk sOk with
      | (c1, effs, none) => Outcome.done (db1, effs, Except.ok c1)
      | (c1, effs, some err) =>
        match closeConn db1 (some c1) with
        | Outcome.blocked => Outcome.blocked
        | Outcome.done (db2, effs2) => Outcome.done (db2, effs ++ effs2, Except.error err)
    | [] =>
      match idle with
      | [] => Outcome.blocked
      | c :: rest =>
        let db1 := { db with idleConns := some rest }
        if connectOk then
          Outcome.done (db1, [Effect.connect c.id], Except.ok (Conn.ConnectFresh c))
        else
          match closeConn db1 (some c) with
          | Outcome.blocked => Outcome.blocked
          | Outcome.done (db2, effs2) =>
            Outcome.done (db2, Effect.connect c.id :: effs2, Except.error KError.ErrConnect)

/-- db.PushConn(co, err): release a session.  A nil co returns at once.
If cacheConns is nil (pool closed) the session is closed and dropped.
If err is non-nil the session is discarded via closeConn.  Otherwise a
non-blocking send into cacheConns is attempted; if the channel is full
the session is discarded via closeConn instead. -/
def PushConn (db : DB) (co : Option Conn) (err : Option KError) :
    Outcome (DB × List Effect) :=
  match co with
  | none => Outcome.done (db, [])
  | some c =>
    match db.cacheConns with
    | none => Outcome.done (db, [Effect.closeSess c.id])
    | some cache =>
      match err with
      | some _ => closeConn db (some c)
      | none =>
        if cache.length < db.maxConnNum.toNat then
          Outcome.done ({ db with cacheConns := some (cache ++ [c]) }, [])
        else closeConn db (some c)

/-- The drain loop of db.Close(): for conn := range cacheChannel, call
db.closeConn(conn) against the current (already detached) pool. -/
def drainClose (db : DB) : List Conn → Outcome (DB × List Effect)
  | [] => Outcome.done (db, [])
  | c :: rest =>
    match closeConn db (some c) with
    | Outcome.blocked => Outcome.blocked
    | Outcome.done (db1, effs) =>
      match drainClose db1 rest with
      | Outcome.blocked => Outcome.blocked
      | Outcome.done (db2, effs2) => Outcome.done (db2, effs ++ effs2)

/-- db.Close(): save both channels, set both fields to nil, and if either
saved channel was nil return nil (success, no action).  Otherwise close
the cache channel and drain it, calling closeConn on each remaining
ready session — against the pool whose idleConns field is already nil.
When it finishes it always returns a nil error, so the payload carries
only the state and effects. -/
def DB.Close (db : DB) : Outcome (DB × List Effect) :=
  let cacheChannel := db.cacheConns
  let idleChannel := db.idleConns
  let db1 := { db with cacheConns := none, idleConns := none }
  match cacheChannel, idleChannel with
  | none, _ => Outcome.done (db1, [])
  | some _, none => Outcome.done (db1, [])
  | some cache, some _ => drainClose db1 cache

/-- The population loop of Open: for i in [i0, i0+n), establish a live
session into cacheConns while i < InitConnNum (newConn may fail, per
the connOk oracle indexed by newConn call number i+1; call 0 is the
check connection), and send a zero-valued placeholder into idleConns
for the remaining slots.  On a newConn failure, db.Close() runs and the
call returns ErrDBPoolInit. -/
def openLoop (connOk : Nat → Bool) (db : DB) : Nat → Nat → Outcome (Except KError DB)
  | _, 0 => Outcome.done (Except.ok db)
  | i, Nat.succ m =>
    if (i : Int) < db.InitConnNum then
      if connOk (i + 1) then
        openLoop connOk
          { db with cacheConns := db.cacheConns.map (fun l => l ++ [freshConn (i + 1)]) }
          (i + 1) m
      else
        match DB.Close db with
        | Outcome.blocked => Outcome.blocked
        | Outcome.done _ => Outcome.done (Except.error KError.ErrDBPoolInit)
    else
      openLoop connOk
        { db with idleConns := db.idleConns.map (fun l => l ++ [zeroConn (i + 1)]) }
        (i + 1) m

/-- Open(addr, user, password, dbName, maxConnNum): clamp the capacity and
the pre-warm count, eagerly establish the check connection (newConn
call 0; on failure db.Close() runs on the still-nil channels and Open
returns ErrDatabaseClose), allocate the two channels, store the Unknown
state, and run the population loop. -/
def Open (addr user password dbName : String) (maxConnNum : Int)
    (connOk : Nat → Bool) : Outcome (Except KError DB) :=
  let db0 : DB :=
    { addr := addr, user := user, password := password, dbName := dbName,
      state := 0, maxConnNum := 0, InitConnNum := 0,
      idleConns := none, cacheConns := none, checkConn := none }
  let db1 :=
    if 0 < maxConnNum then
      { db0 with maxConnNum := maxConnNum,
                 InitConnNum := if maxConnNum < 16 then maxConnNum else maxConnNum / 4 }
    else
      { db0 with maxConnNum := DefaultMaxConnNum, InitConnNum := InitConnCount }
  if connOk 0 = true then
    let db2 := { db1 with checkConn := some (freshConn 0),
                          idleConns := some [], cacheConns := some [],
                          state := Unknown }
    openLoop connOk db2 0 db2.maxConnNum.toNat
  else
    Outcome.done (Except.error KError.ErrDatabaseClose)

/-- The BackendConn handle: an embedded (nilable) *Conn.  The db back
reference of the source is passed explicitly in this functional
embedding. -/
structure BackendConn where
  conn : Option Conn
deriving DecidableEq, Repr

/-- (p *BackendConn).Close(): if p.Conn is non-nil, discard it via
closeConn when its pkgErr marker is set, else release it via
PushConn(co, nil).  The source never assigns p.Conn = nil, so the
handle is returned unchanged. -/
def BackendConn.Close (db : DB) (p : BackendConn) :
    Outcome (BackendConn × DB × List Effect) :=
  match p.conn with
  | none => Outcome.done (p, db, [])
  | some c =>
    if c.pkgErr then
      match closeConn db (some c) with
      | Outcome.blocked => Outcome.blocked
      | Outcome.done (db1, effs) => Outcome.done (p, db1, effs)
    else
      match PushConn db (some c) none with
      | Outcome.blocked => Outcome.blocked
      | Outcome.done (db1, effs) => Outcome.done (p, db1, effs)

/-- db.GetConn(): PopConn wrapped into a BackendConn handle. -/
def GetConn (db : DB) (connectOk rOk eOk sOk : Bool) :
    Outcome (DB × List Effect × Except KError BackendConn) :=
  match PopConn db connectOk rOk eOk sOk with
  | Outcome.blocked => Outcome.blocked
  | Outcome.done (db1, effs, Except.error err) => Outcome.done (db1, effs, Except.error err)
  | Outcome.done (db1, effs, Except.ok c) =>
    Outcome.done (db1, effs, Except.ok { conn := some c })

/-! ### The pool protocol: borrow accounting and reachable states -/

/-- A pool together with the number of sessions currently handed out and
not yet released (the borrowed count of the spec's capacity invariant). -/
structure PoolState where
  db : DB
  borrowed : Nat

/-- The capacity invariant: both channels are attached, and ready
(cacheConns) plus reserved (idleConns) plus borrowed equals maxConnNum. -/
def capacityOK (s : PoolState) : Prop :=
  ∃ cache idle, s.db.cacheConns = some cache ∧ s.db.idleConns = some idle ∧
    cache.length + idle.length + s.borrowed = s.db.maxConnNum.toNat

/-- One pool operation under the sanctioned usage protocol: an Acquire
(PopConn, succeeding or failing), a Release of a borrowed session
(PushConn, with or without a caller error), or an internal discard of a
borrowed session (closeConn, the path handle.Close takes on a protocol
error). -/
inductive Step : PoolState → PoolState → Prop where
  | acquireOk (s : PoolState) (cOk rOk eOk sOk : Bool) (db' : DB)
      (effs : List Effect) (c : Conn) :
      PopConn s.db cOk rOk eOk sOk = Outcome.done (db', effs, Except.ok c) →
      Step s ⟨db', s.borrowed + 1⟩
  | acquireErr (s : PoolState) (cOk rOk eOk sOk : Bool) (db' : DB)
      (effs : List Effect) (err : KError) :
      PopConn s.db cOk rOk eOk sOk = Outcome.done (db', effs, Except.error err) →
      Step s ⟨db', s.borrowed⟩
  | release (s : PoolState) (c : Conn) (err : Option KError) (db' : DB)
      (effs : List Effect) :
      0 < s.borrowed →
      PushConn s.db (some c) err = Outcome.done (db', effs) →
      Step s ⟨db', s.borrowed - 1⟩
  | discard (s : PoolState) (c : Conn) (db' : DB) (effs : List Effect) :
      0 < s.borrowed →
      closeConn s.db (some c) = Outcome.done (db', effs) →
      Step s ⟨db', s.borrowed - 1⟩

/-- The pool states reachable from a successful Open through the pool
operations (Shutdown excluded: the claim is about the open pool). -/
inductive Reachable : PoolState → Prop where
  | init (addr user password dbName : String) (maxN : Int) (connOk : Nat → Bool)
      (db : DB) :
      Open addr user password dbName maxN connOk = Outcome.done (Except.ok db) →
      Reachable ⟨db, 0⟩
  | step (s t : PoolState) : Reachable s → Step s t → Reachable t

/-! ### Concrete fixtures -/

/-- A concrete address for the executable fixtures. -/
def tAddr : String := "127.0.0.1:3306"

/-- A concrete user for the executable fixtures. -/
def tUser : String := "root"

/-- A concrete password for the executable fixtures. -/
def tPass : String := "pw"

/-- A concrete schema name for the executable fixtures. -/
def tName : String := "kingshard"

/-- The pool returned by a successful Open with maxConnNum 1: one ready
session, no reserved slots. -/
def dbOne : DB :=
  { addr := tAddr, user := tUser, password := tPass, dbName := tName,
    state := Unknown, maxConnNum := 1, InitConnNum := 1,
    idleConns := some [], cacheConns := some [freshConn 1],
    checkConn := some (freshConn 0) }

/-- dbOne after its single ready session has been acquired. -/
def dbA : DB := { dbOne with cacheConns := some [] }

/-- The session of dbOne after its borrower observed a protocol error. -/
def cErr : Conn := { freshConn 1 with pkgErr := true }

/-- dbA after the errored session was discarded through the handle:
the closed object sits in idleConns as the reserved slot. -/
def dbB : DB := { dbOne with cacheConns := some [], idleConns := some [Conn.CloseSess cErr] }

/-- dbB after the next Acquire promoted the reserved slot. -/
def dbC : DB := { dbOne with cacheConns := some [], idleConns := some [] }

/-- dbOne with both channels detached (the state after Close). -/
def dbClosed : DB := { dbOne with cacheConns := none, idleConns := none }

/-- A capacity-2 pool whose two sessions are both borrowed: ready and
reserved both empty. -/
def dbTwo : DB :=
  { addr := tAddr, user := tUser, password := tPass, dbName := tName,
    state := Unknown, maxConnNum := 2, InitConnNum := 2,
    idleConns := some [], cacheConns := some [],
    checkConn := some (freshConn 0) }

/-- A borrowed session of dbTwo, with no protocol error. -/
def connB : Conn := freshConn 3

/-- A handle wrapping connB. -/
def hB : BackendConn := { conn := some connB }

/-- dbTwo after the first handle.Close released connB. -/
def dbTwoA : DB := { dbTwo with cacheConns := some [connB] }

/-- dbTwo after a second handle.Close on the same handle released connB
again: the same session object sits in the ready collection twice. -/
def dbTwoB : DB := { dbTwo with cacheConns := some [connB, connB] }

/-- The pool returned by a successful Open with maxConnNum 20:
InitConnNum = 20 / 4 = 5 ready sessions and 15 reserved slots. -/
def db20 : DB :=
  { addr := tAddr, user := tUser, password := tPass, dbName := tName,
    state := Unknown, maxConnNum := 20, InitConnNum := 5,
    idleConns := some [zeroConn 6, zeroConn 7, zeroConn 8, zeroConn 9, zeroConn 10,
      zeroConn 11, zeroConn 12, zeroConn 13, zeroConn 14, zeroConn 15,
      zeroConn 16, zeroConn 17, zeroConn 18, zeroConn 19, zeroConn 20],
    cacheConns := some [freshConn 1, freshConn 2, freshConn 3, freshConn 4, freshConn 5],
    checkConn := some (freshConn 0) }

/-- A pool whose ready collection is empty and whose idle collection has
one reserved slot, for exercising the promotion path. -/
def dbIdleW : DB :=
  { addr := tAddr, user := tUser, password := tPass, dbName := tName,
    state := Unknown, maxConnNum := 3, InitConnNum := 1,
    idleConns := some [zeroConn 9], cacheConns := some [],
    checkConn := some (freshConn 0) }

/-- A pool whose ready collection has one clean session, for exercising
the fast path through sanitation. -/
def dbCacheW : DB :=
  { addr := tAddr, user := tUser, password := tPass, dbName := tName,
    state := Unknown, maxConnNum := 3, InitConnNum := 1,
    idleConns := some [], cacheConns := some [freshConn 4],
    checkConn := some (freshConn 0) }

/-! ### Characterization lemmas -/

/-- closeConn on a non-nil session finishes only by appending the closed
session to a live, non-full idleConns channel. -/
theorem closeConn_some_done {db db' : DB} {c : Conn} {effs : List Effect}
    (h : closeConn db (some c) = Outcome.done (db', effs)) :
    ∃ idle, db.idleConns = some idle ∧ idle.length < db.maxConnNum.toNat ∧
      db' = { db with idleConns := some (idle ++ [Conn.CloseSess c]) } ∧
      effs = [Effect.closeSess c.id] := by
  simp only [closeConn] at h
  split at h
  · exact absurd h (by simp)
  next idle heq =>
    split at h
    next hlt =>
      simp only [Outcome.done.injEq, Prod.mk.injEq] at h
      exact ⟨idle, heq, hlt, h.1.symm, h.2.symm⟩
    next => exact absurd h (by simp)

/-- A finished PushConn of a non-nil session into an attached pool moves
the session into cacheConns or idleConns: combined channel size grows
by one and maxConnNum is untouched. -/
theorem PushConn_some_done_counts {db db' : DB} {c : Conn} {err : Option KError}
    {effs : List Effect} {cache idle : List Conn}
    (hc : db.cacheConns = some cache) (hi : db.idleConns = some idle)
    (h : PushConn db (some c) err = Outcome.done (db', effs)) :
    ∃ cache' idle', db'.cacheConns = some cache' ∧ db'.idleConns = some idle' ∧
      cache'.length + idle'.length = cache.length + idle.length + 1 ∧
      db'.maxConnNum = db.maxConnNum := by
  simp only [PushConn] at h
  rw [hc] at h
  rcases err with _ | err
  · simp only at h
    split at h
    next hlt =>
      simp only [Outcome.done.injEq, Prod.mk.injEq] at h
      refine ⟨cache ++ [c], idle, by simp [← h.1], by simp [← h.1, hi], ?_, by simp [← h.1]⟩
      simp only [List.length_append, List.length_cons, List.length_nil]
      omega
    next =>
      obtain ⟨idle0, hi0, _, hdb, _⟩ := closeConn_some_done h
      rw [hi] at hi0
      obtain rfl : idle = idle0 := by injection hi0
      refine ⟨cache, idle ++ [Conn.CloseSess c], by simp [hdb, hc], by simp [hdb], ?_,
        by simp [hdb]⟩
      simp only [List.length_append, List.length_cons, List.length_nil]
      omega
  · simp only at h
    obtain ⟨idle0, hi0, _, hdb, _⟩ := closeConn_some_done h
    rw [hi] at hi0
    obtain rfl : idle = idle0 := by injection hi0
    refine ⟨cache, idle ++ [Conn.CloseSess c], by simp [hdb, hc], by simp [hdb], ?_,
      by simp [hdb]⟩
    simp only [List.length_append, List.length_cons, List.length_nil]
    omega

/-- A finished PopConn on an attached pool conserves capacity: the
combined channel size drops by one exactly when a session is handed
out, and is unchanged when an error is returned; maxConnNum is
untouched. -/
theorem PopConn_done_counts {db db' : DB} {cOk rOk eOk sOk : Bool}
    {effs : List Effect} {res : Except KError Conn} {cache idle : List Conn}
    (hc : db.cacheConns = some cache) (hi : db.idleConns = some idle)
    (h : PopConn db cOk rOk eOk sOk = Outcome.done (db', effs, res)) :
    ∃ cache' idle', db'.cacheConns = some cache' ∧ db'.idleConns = some idle' ∧
      db'.maxConnNum = db.maxConnNum ∧
      cache'.length + idle'.length +
          (match res with | Except.ok _ => 1 | Except.error _ => 0)
        = cache.length + idle.length := by
  rcases cache with _ | ⟨c, rest⟩
  · rcases idle with _ | ⟨c, rest⟩
    · rw [show PopConn db cOk rOk eOk sOk = Outcome.blocked from by
        simp [PopConn, hc, hi]] at h
      exact absurd h (by simp)
    · simp only [PopConn, hc, hi] at h
      split at h
      next =>
        simp only [Outcome.done.injEq, Prod.mk.injEq] at h
        obtain ⟨h1, _, h3⟩ := h
        refine ⟨[], rest, by simp [← h1, hc], by simp [← h1], by simp [← h1], ?_⟩
        subst h3
        simp
      next =>
        split at h
        next => exact absurd h (by simp)
        next db2 effs2 heq =>
          obtain ⟨idle0, hi0, _, hdb, _⟩ := closeConn_some_done heq
          simp only at hi0
          obtain rfl : rest = idle0 := by injection hi0
          simp only [Outcome.done.injEq, Prod.mk.injEq] at h
          obtain ⟨h1, _, h3⟩ := h
          refine ⟨[], rest ++ [Conn.CloseSess c], by simp [← h1, hdb, hc],
            by simp [← h1, hdb], by simp [← h1, hdb], ?_⟩
          subst h3
          simp
  · simp only [PopConn, hc, hi] at h
    rcases htr : tryReuse c rOk eOk sOk with ⟨c1, teffs, terr⟩
    rw [htr] at h
    rcases terr with _ | terr
    · simp only [Outcome.done.injEq, Prod.mk.injEq] at h
      obtain ⟨h1, _, h3⟩ := h
      refine ⟨rest, idle, by simp [← h1], by simp [← h1, hi], by simp [← h1], ?_⟩
      subst h3
      simp only [List.length_cons]
      omega
    · simp only at h
      split at h
      next => exact absurd h (by simp)
      next db2 effs2 heq =>
        obtain ⟨idle0, hi0, _, hdb, _⟩ := closeConn_some_done heq
        simp only [hi] at hi0
        obtain rfl : idle = idle0 := by injection hi0
        simp only [Outcome.done.injEq, Prod.mk.injEq] at h
        obtain ⟨h1, _, h3⟩ := h
        refine ⟨rest, idle ++ [Conn.CloseSess c1], by simp [← h1, hdb],
          by simp [← h1, hdb], by simp [← h1, hdb], ?_⟩
        subst h3
        simp only [List.length_append, List.length_cons, List.length_nil]
        omega

/-- A successful run of the population loop adds exactly one session to
one of the two channels per iteration, and leaves maxConnNum alone. -/
theorem openLoop_ok_sum {connOk : Nat → Bool} :
    ∀ (n i : Nat) (db db' : DB) (cache idle : List Conn),
      db.cacheConns = some cache → db.idleConns = some idle →
      openLoop connOk db i n = Outcome.done (Except.ok db') →
      ∃ cache' idle', db'.cacheConns = some cache' ∧ db'.idleConns = some idle' ∧
        cache'.length + idle'.length = cache.length + idle.length + n ∧
        db'.maxConnNum = db.maxConnNum := by
  intro n
  induction n with
  | zero =>
    intro i db db' cache idle hc hi h
    simp only [openLoop, Outcome.done.injEq, Except.ok.injEq] at h
    subst h
    exact ⟨cache, idle, hc, hi, by omega, rfl⟩
  | succ m ih =>
    intro i db db' cache idle hc hi h
    simp only [openLoop] at h
    split at h
    next =>
      split at h
      next =>
        obtain ⟨cache', idle', h1, h2, h3, h4⟩ :=
          ih (i + 1) _ db' (cache ++ [freshConn (i + 1)]) idle
            (by simp [hc]) (by simpa using hi) h
        refine ⟨cache', idle', h1, h2, ?_, by simpa using h4⟩
        simp only [List.length_append, List.length_cons, List.length_nil] at h3
        omega
      next =>
        split at h
        next => exact absurd h (by simp)
        next => exact absurd h (by simp)
    next =>
      obtain ⟨cache', idle', h1, h2, h3, h4⟩ :=
        ih (i + 1) _ db' cache (idle ++ [zeroConn (i + 1)])
          (by simpa using hc) (by simp [hi]) h
      refine ⟨cache', idle', h1, h2, ?_, by simpa using h4⟩
      simp only [List.length_append, List.length_cons, List.length_nil] at h3
      omega

/-- Composing two runs of the population loop. -/
theorem openLoop_add {connOk : Nat → Bool} :
    ∀ (m k i : Nat) (db dbm : DB),
      openLoop connOk db i m = Outcome.done (Except.ok dbm) →
      openLoop connOk db i (m + k) = openLoop connOk dbm (i + m) k := by
  intro m
  induction m with
  | zero =>
    intro k i db dbm h
    simp only [openLoop, Outcome.done.injEq, Except.ok.injEq] at h
    subst h
    rw [Nat.zero_add, Nat.add_zero]
  | succ m ih =>
    intro k i db dbm h
    have hse : m + 1 + k = (m + k) + 1 := by omega
    have hidx : i + (m + 1) = (i + 1) + m := by omega
    rw [hse, hidx]
    simp only [openLoop] at h ⊢
    split at h
    next hlt =>
      rw [if_pos hlt]
      split at h
      next hok =>
        rw [if_pos hok]
        exact ih k (i + 1) _ dbm h
      next hok =>
        rw [if_neg hok]
        split at h
        next => exact absurd h (by simp)
        next => exact absurd h (by simp)
    next hlt =>
      rw [if_neg hlt]
      exact ih k (i + 1) _ dbm h

/-- Once the loop index has reached InitConnNum, every remaining iteration
appends one zero-valued placeholder to idleConns and nothing else. -/
theorem openLoop_ge_init {connOk : Nat → Bool} :
    ∀ (n i : Nat) (db : DB) (idle : List Conn),
      db.idleConns = some idle →
      db.InitConnNum ≤ (i : Int) →
      ∃ idle2 : List Conn, idle2.length = n ∧
        openLoop connOk db i n =
          Outcome.done (Except.ok { db with idleConns := some (idle ++ idle2) }) := by
  intro n
  induction n with
  | zero =>
    intro i db idle hi _
    refine ⟨[], rfl, ?_⟩
    simp only [openLoop, List.append_nil, ← hi]
  | succ m ih =>
    intro i db idle hi hge
    have hdb1 : { db with idleConns := db.idleConns.map (fun l => l ++ [zeroConn (i + 1)]) } =
        { db with idleConns := some (idle ++ [zeroConn (i + 1)]) } := by
      rw [hi]
      rfl
    obtain ⟨idle2, hlen, hres⟩ :=
      ih (i + 1) { db with idleConns := some (idle ++ [zeroConn (i + 1)]) }
        (idle ++ [zeroConn (i + 1)]) rfl (by simp only [Int.natCast_add, Int.natCast_one]; omega)
    refine ⟨zeroConn (i + 1) :: idle2, by simp [hlen], ?_⟩
    simp only [openLoop, if_neg (not_lt.mpr hge)]
    rw [hdb1, hres]
    simp

/-- While the loop index is below InitConnNum and every newConn succeeds,
each iteration appends one freshly connected session to cacheConns and
nothing else. -/
theorem openLoop_lt_init {connOk : Nat → Bool} (hall : ∀ k, connOk k = true) :
    ∀ (n i : Nat) (db : DB) (cache : List Conn),
      db.cacheConns = some cache →
      (i : Int) + n ≤ db.InitConnNum →
      ∃ added : List Conn, added.length = n ∧ (∀ c ∈ added, c.connected = true) ∧
        openLoop connOk db i n =
          Outcome.done (Except.ok { db with cacheConns := some (cache ++ added) }) := by
  intro n
  induction n with
  | zero =>
    intro i db cache hc _
    refine ⟨[], rfl, by simp, ?_⟩
    simp only [openLoop, List.append_nil, ← hc]
  | succ m ih =>
    intro i db cache hc hle
    have hlt : (i : Int) < db.InitConnNum := by push_cast at hle ⊢; omega
    have hdb1 : { db with cacheConns := db.cacheConns.map (fun l => l ++ [freshConn (i + 1)]) } =
        { db with cacheConns := some (cache ++ [freshConn (i + 1)]) } := by
      rw [hc]
      rfl
    obtain ⟨added, hlen, hconn, hres⟩ :=
      ih (i + 1) { db with cacheConns := some (cache ++ [freshConn (i + 1)]) }
        (cache ++ [freshConn (i + 1)]) rfl (by push_cast at hle ⊢; omega)
    refine ⟨freshConn (i + 1) :: added, by simp [hlen], ?_, ?_⟩
    · intro c hcmem
      rw [List.mem_cons] at hcmem
      rcases hcmem with rfl | hcmem
      · rfl
      · exact hconn c hcmem
    · simp only [openLoop, if_pos hlt, hall (i + 1), if_pos rfl]
      rw [hdb1, hres]
      simp

/-- A successful Open leaves both channels attached and their combined
size equal to the pool capacity. -/
theorem Open_ok_channels {addr user password dbName : String} {maxN : Int}
    {connOk : Nat → Bool} {db : DB}
    (h : Open addr user password dbName maxN connOk = Outcome.done (Except.ok db)) :
    ∃ cache idle, db.cacheConns = some cache ∧ db.idleConns = some idle ∧
      cache.length + idle.length = db.maxConnNum.toNat := by
  simp only [Open] at h
  split at h
  next =>
    obtain ⟨cache, idle, hc, hi, hsum, hmax⟩ :=
      openLoop_ok_sum _ 0 _ db [] [] rfl rfl h
    refine ⟨cache, idle, hc, hi, ?_⟩
    rw [hmax]
    simpa using hsum
  next => exact absurd h (by simp)

/-! ### The claims -/

/-- Claim C1: for every reachable pool state and every pool operation
(Acquire via PopConn, Release via PushConn, internal discard via
closeConn), ready sessions in cacheConns plus reserved slots in
idleConns plus sessions currently handed out equals maxConnNum exactly;
no operation other than Open and Shutdown creates or destroys
capacity. -/
theorem C1_capacity_invariant (s : PoolState) (h : Reachable s) : capacityOK s := by
  induction h with
  | init addr user password dbName maxN connOk db hopen =>
    obtain ⟨cache, idle, hc, hi, hsum⟩ := Open_ok_channels hopen
    exact ⟨cache, idle, hc, hi, by simpa using hsum⟩
  | step s t hs hst ih =>
    obtain ⟨cache, idle, hc, hi, hsum⟩ := ih
    cases hst with
    | acquireOk cOk rOk eOk sOk db' effs c hpop =>
      obtain ⟨cache', idle', hc', hi', hmax, hcnt⟩ := PopConn_done_counts hc hi hpop
      refine ⟨cache', idle', hc', hi', ?_⟩
      have hmax2 : db'.maxConnNum.toNat = s.db.maxConnNum.toNat := by rw [hmax]
      simp only at hcnt hsum ⊢
      omega
    | acquireErr cOk rOk eOk sOk db' effs err hpop =>
      obtain ⟨cache', idle', hc', hi', hmax, hcnt⟩ := PopConn_done_counts hc hi hpop
      refine ⟨cache', idle', hc', hi', ?_⟩
      have hmax2 : db'.maxConnNum.toNat = s.db.maxConnNum.toNat := by rw [hmax]
      simp only at hcnt hsum ⊢
      omega
    | release c err db' effs hb hpush =>
      obtain ⟨cache', idle', hc', hi', hcnt, hmax⟩ := PushConn_some_done_counts hc hi hpush
      refine ⟨cache', idle', hc', hi', ?_⟩
      have hmax2 : db'.maxConnNum.toNat = s.db.maxConnNum.toNat := by rw [hmax]
      simp only at hcnt hsum ⊢
      omega
    | discard c db' effs hb hclose =>
      obtain ⟨idle0, hi0, _, hdb, _⟩ := closeConn_some_done hclose
      rw [hi] at hi0
      obtain rfl : idle = idle0 := by injection hi0
      refine ⟨cache, idle ++ [Conn.CloseSess c], by simp [hdb, hc], by simp [hdb], ?_⟩
      have hmax2 : DB.maxConnNum { s.db with idleConns := some (idle ++ [Conn.CloseSess c]) }
          = s.db.maxConnNum := rfl
      simp only [hdb, hmax2]
      simp only [List.length_append, List.length_cons, List.length_nil]
      omega

/-- Witness for C1: the invariant holds in the state right after a
concrete successful Open. -/
theorem C1_witness : capacityOK ⟨dbOne, 0⟩ :=
  C1_capacity_invariant ⟨dbOne, 0⟩
    (Reachable.init tAddr tUser tPass tName 1 (fun _ => true) dbOne (by rfl))

/-- Claim C2 (code bug at an explicit input): Shutdown on a pool whose
ready collection is non-empty must close every remaining session,
terminate and return success; the code instead blocks forever, because
Close nils the idleConns field before draining and the drain's
closeConn then sends on the nil channel.  On an already-detached pool
Close does return success with no action, and an Acquire after the
detach returns ErrDatabaseClose. -/
theorem C2_close_blocks_on_nonempty_ready :
    Open tAddr tUser tPass tName 1 (fun _ => true) = Outcome.done (Except.ok dbOne) ∧
    DB.Close dbOne = Outcome.blocked ∧
    DB.Close dbClosed = Outcome.done (dbClosed, []) ∧
    PopConn dbClosed true true true true =
      Outcome.done (dbClosed, [], Except.error KError.ErrDatabaseClose) :=
  ⟨rfl, rfl, rfl, rfl⟩

/-- Claim C3 (code bug at an explicit input): handle Close is claimed to
have exactly-once semantics, but the source never clears p.Conn, so a
second Close on the same handle releases the same session object into
the ready collection again: after two Close calls on a capacity-2 pool
the session sits in cacheConns twice. -/
theorem C3_close_releases_twice :
    BackendConn.Close dbTwo hB = Outcome.done (hB, dbTwoA, []) ∧
    BackendConn.Close dbTwoA hB = Outcome.done (hB, dbTwoB, []) ∧
    dbTwoA.cacheConns = some [connB] ∧
    dbTwoB.cacheConns = some [connB, connB] :=
  ⟨rfl, rfl, rfl, rfl⟩

/-- Claim C4, counterexample: after the borrower of dbOne's session marks
it with a protocol error and closes the handle, the discarded object
(id 1) goes into idleConns, and the very next Acquire promotes and
returns that exact session object (same id, i.e. the same Go pointer),
reconnected. -/
theorem C4_counterexample :
    PopConn dbOne true true true true = Outcome.done (dbA, [], Except.ok (freshConn 1)) ∧
    BackendConn.Close dbA { conn := some cErr } =
      Outcome.done ({ conn := some cErr }, dbB, [Effect.closeSess 1]) ∧
    PopConn dbB true true true true =
      Outcome.done (dbC, [Effect.connect 1],
        Except.ok (Conn.ConnectFresh (Conn.CloseSess cErr))) ∧
    (Conn.ConnectFresh (Conn.CloseSess cErr)).id = cErr.id :=
  ⟨rfl, rfl, rfl, rfl⟩

/-- Claim C4 (amended): a discarded session's object may be recycled, but
never with its old connection: every session an Acquire yields when the
ready collection is empty comes from reserved-slot promotion and is
freshly connected and clean (no transaction, autocommit on, default
charset, no protocol-error marker). -/
theorem C4_promoted_sessions_are_fresh (db db' : DB) (cOk rOk eOk sOk : Bool)
    (effs : List Effect) (c : Conn)
    (hc : db.cacheConns = some [])
    (h : PopConn db cOk rOk eOk sOk = Outcome.done (db', effs, Except.ok c)) :
    c.connected = true ∧ c.inTransaction = false ∧ c.autoCommit = true ∧
      c.charset = DEFAULT_CHARSET ∧ c.pkgErr = false := by
  rcases hi : db.idleConns with _ | idle
  · simp [PopConn, hc, hi] at h
  · rcases idle with _ | ⟨c0, rest⟩
    · rw [show PopConn db cOk rOk eOk sOk = Outcome.blocked from by
        simp [PopConn, hc, hi]] at h
      exact absurd h (by simp)
    · simp only [PopConn, hc, hi] at h
      split at h
      next =>
        simp only [Outcome.done.injEq, Prod.mk.injEq, Except.ok.injEq] at h
        obtain ⟨_, _, rfl⟩ := h
        exact ⟨rfl, rfl, rfl, rfl, rfl⟩
      next =>
        split at h
        next => exact absurd h (by simp)
        next => simp at h

/-- Witness for the amended C4, at the concrete pool dbB holding the
discarded session in its reserved slot. -/
theorem C4_witness :
    (Conn.ConnectFresh (Conn.CloseSess cErr)).connected = true ∧
      (Conn.ConnectFresh (Conn.CloseSess cErr)).inTransaction = false ∧
      (Conn.ConnectFresh (Conn.CloseSess cErr)).autoCommit = true ∧
      (Conn.ConnectFresh (Conn.CloseSess cErr)).charset = DEFAULT_CHARSET ∧
      (Conn.ConnectFresh (Conn.CloseSess cErr)).pkgErr = false :=
  C4_promoted_sessions_are_fresh dbB dbC true true true true [Effect.connect 1]
    (Conn.ConnectFresh (Conn.CloseSess cErr)) rfl rfl

/-- Unfolding Open in the positive-capacity branch. -/
theorem Open_unfold_pos {addr user password dbName : String} {maxN : Int}
    {connOk : Nat → Bool} (hpos : 0 < maxN) :
    Open addr user password dbName maxN connOk =
      if connOk 0 = true then
        openLoop connOk
          { addr := addr, user := user, password := password, dbName := dbName,
            state := Unknown, maxConnNum := maxN,
            InitConnNum := if maxN < 16 then maxN else maxN / 4,
            idleConns := some [], cacheConns := some [],
            checkConn := some (freshConn 0) } 0 maxN.toNat
      else Outcome.done (Except.error KError.ErrDatabaseClose) := by
  simp only [Open, if_pos hpos]

/-- Unfolding Open in the defaulted (zero or negative capacity) branch. -/
theorem Open_unfold_nonpos {addr user password dbName : String} {maxN : Int}
    {connOk : Nat → Bool} (hpos : ¬ 0 < maxN) :
    Open addr user password dbName maxN connOk =
      if connOk 0 = true then
        openLoop connOk
          { addr := addr, user := user, password := password, dbName := dbName,
            state := Unknown, maxConnNum := DefaultMaxConnNum,
            InitConnNum := InitConnCount,
            idleConns := some [], cacheConns := some [],
            checkConn := some (freshConn 0) } 0 DefaultMaxConnNum.toNat
      else Outcome.done (Except.error KError.ErrDatabaseClose) := by
  simp only [Open, if_neg hpos]

/-- A full run of the population loop from empty channels, with every
newConn succeeding: exactly InitConnNum live sessions in cacheConns and
the remaining capacity in idleConns. -/
theorem openLoop_full {connOk : Nat → Bool} (hall : ∀ k, connOk k = true)
    (db : DB) (hc : db.cacheConns = some []) (hi : db.idleConns = some [])
    (hIpos : 0 ≤ db.InitConnNum) (hIle : db.InitConnNum ≤ db.maxConnNum) :
    ∃ db' cache idle,
      openLoop connOk db 0 db.maxConnNum.toNat = Outcome.done (Except.ok db') ∧
      db'.cacheConns = some cache ∧ db'.idleConns = some idle ∧
      (∀ c ∈ cache, c.connected = true) ∧
      (cache.length : Int) = db.InitConnNum ∧
      (cache.length : Int) + (idle.length : Int) = db.maxConnNum := by
  obtain ⟨added, hlen, hconnd, hphase1⟩ :=
    openLoop_lt_init hall db.InitConnNum.toNat 0 db [] hc (by omega)
  have hsplit : db.maxConnNum.toNat = db.InitConnNum.toNat + (db.maxConnNum - db.InitConnNum).toNat := by
    omega
  rw [hsplit]
  rw [openLoop_add _ _ 0 _ _ hphase1]
  obtain ⟨idle2, hlen2, hphase2⟩ :=
    openLoop_ge_init ((db.maxConnNum - db.InitConnNum).toNat) (0 + db.InitConnNum.toNat)
      { db with cacheConns := some ([] ++ added) } [] hi
      (by push_cast; omega)
  rw [hphase2]
  refine ⟨_, [] ++ added, [] ++ idle2, rfl, rfl, rfl, ?_, ?_, ?_⟩
  · simpa using hconnd
  · simp only [List.nil_append, hlen]
    omega
  · simp only [List.nil_append, hlen, hlen2]
    omega

/-- Claim C5: immediately after a successful Open the ready collection
holds exactly initialConnections live sessions and ready plus reserved
equals the capacity: for positive maxN the capacity is maxN and the
pre-warm count is maxN when maxN < 16 and maxN / 4 otherwise; for
maxN ≤ 0 the capacity is 1024 with 16 pre-warmed sessions. -/
theorem C5_open_population (addr user password dbName : String) (maxN : Int) (db : DB)
    (h : Open addr user password dbName maxN (fun _ => true) = Outcome.done (Except.ok db)) :
    ∃ cache idle, db.cacheConns = some cache ∧ db.idleConns = some idle ∧
      (∀ c ∈ cache, c.connected = true) ∧
      (0 < maxN →
        (cache.length : Int) = (if maxN < 16 then maxN else maxN / 4) ∧
        (cache.length : Int) + (idle.length : Int) = maxN) ∧
      (maxN ≤ 0 →
        (cache.length : Int) = 16 ∧
        (cache.length : Int) + (idle.length : Int) = 1024) := by
  by_cases hpos : 0 < maxN
  · rw [Open_unfold_pos hpos, if_pos rfl] at h
    have hIb : 0 ≤ (if maxN < 16 then maxN else maxN / 4) ∧
        (if maxN < 16 then maxN else maxN / 4) ≤ maxN := by
      by_cases h16 : maxN < 16
      · rw [if_pos h16]
        omega
      · rw [if_neg h16]
        omega
    obtain ⟨db', cache, idle, hrun, hc, hi, hconnd, hilen, hsum⟩ :=
      openLoop_full (fun _ => rfl)
        { addr := addr, user := user, password := password, dbName := dbName,
          state := Unknown, maxConnNum := maxN,
          InitConnNum := if maxN < 16 then maxN else maxN / 4,
          idleConns := some [], cacheConns := some [],
          checkConn := some (freshConn 0) } rfl rfl hIb.1 hIb.2
    rw [hrun] at h
    simp only [Outcome.done.injEq, Except.ok.injEq] at h
    subst h
    exact ⟨cache, idle, hc, hi, hconnd,
      fun _ => ⟨hilen, hsum⟩, fun hneg => absurd hpos (by omega)⟩
  · rw [Open_unfold_nonpos hpos, if_pos rfl] at h
    have hd1 : (0 : Int) ≤ InitConnCount := by decide
    have hd2 : InitConnCount ≤ DefaultMaxConnNum := by decide
    obtain ⟨db', cache, idle, hrun, hc, hi, hconnd, hilen, hsum⟩ :=
      openLoop_full (fun _ => rfl)
        { addr := addr, user := user, password := password, dbName := dbName,
          state := Unknown, maxConnNum := DefaultMaxConnNum,
          InitConnNum := InitConnCount,
          idleConns := some [], cacheConns := some [],
          checkConn := some (freshConn 0) } rfl rfl hd1 hd2
    rw [hrun] at h
    simp only [Outcome.done.injEq, Except.ok.injEq] at h
    subst h
    exact ⟨cache, idle, hc, hi, hconnd, fun hp => absurd hp hpos,
      fun _ => ⟨hilen, hsum⟩⟩

/-- Witness for C5 at maxN = 20: five pre-warmed live sessions and fifteen
reserved slots. -/
theorem C5_witness :
    ∃ cache idle, db20.cacheConns = some cache ∧ db20.idleConns = some idle ∧
      (∀ c ∈ cache, c.connected = true) ∧
      (0 < (20 : Int) →
        (cache.length : Int) = (if (20 : Int) < 16 then 20 else 20 / 4) ∧
        (cache.length : Int) + (idle.length : Int) = 20) ∧
      ((20 : Int) ≤ 0 →
        (cache.length : Int) = 16 ∧
        (cache.length : Int) + (idle.length : Int) = 1024) :=
  C5_open_population tAddr tUser tPass tName 20 db20 (by rfl)

/-- Claim C6, counterexample: when establishing the check connection
fails, Open returns ErrDatabaseClose — the closed-pool error, not the
ErrDBPoolInit pool-initialization error the claim names. -/
theorem C6_counterexample :
    Open tAddr tUser tPass tName 5 (fun _ => false) =
      Outcome.done (Except.error KError.ErrDatabaseClose) ∧
    KError.ErrDatabaseClose ≠ KError.ErrDBPoolInit :=
  ⟨rfl, by decide⟩

/-- Claim C6 (amended): if establishing the dedicated health-check session
fails, Open aborts immediately — before allocating the channels — and
returns the closed-pool error ErrDatabaseClose. -/
theorem C6_check_conn_failure_error (addr user password dbName : String)
    (maxN : Int) (connOk : Nat → Bool) (h : connOk 0 = false) :
    Open addr user password dbName maxN connOk =
      Outcome.done (Except.error KError.ErrDatabaseClose) := by
  simp [Open, h]

/-- Witness for the amended C6 at a concrete input. -/
theorem C6_witness :
    Open tAddr tUser tPass tName 7 (fun _ => false) =
      Outcome.done (Except.error KError.ErrDatabaseClose) :=
  C6_check_conn_failure_error tAddr tUser tPass tName 7 (fun _ => false) rfl

/-- Claim C7: a session obtained by promoting a reserved slot is handed to
the caller without Reuse Sanitation — its only backend call is the
connect — while a session taken from the ready collection passes
tryReuse before being handed out (on sanitation success the result and
effects of PopConn are exactly those of tryReuse). -/
theorem C7_sanitation_paths (db : DB) (c : Conn) (connectOk rOk eOk sOk : Bool) :
    (∀ rest, db.cacheConns = some [] → db.idleConns = some (c :: rest) →
      connectOk = true →
      PopConn db connectOk rOk eOk sOk =
        Outcome.done ({ db with idleConns := some rest }, [Effect.connect c.id],
          Except.ok (Conn.ConnectFresh c))) ∧
    (∀ rest idle c1 effs, db.cacheConns = some (c :: rest) → db.idleConns = some idle →
      tryReuse c rOk eOk sOk = (c1, effs, none) →
      PopConn db connectOk rOk eOk sOk =
        Outcome.done ({ db with cacheConns := some rest }, effs, Except.ok c1)) := by
  constructor
  · intro rest hc hi hcOk
    subst hcOk
    simp [PopConn, hc, hi]
  · intro rest idle c1 effs hc hi htr
    simp [PopConn, hc, hi, htr]

/-- Witness for C7: both paths at concrete pools. -/
theorem C7_witness :
    PopConn dbIdleW true true true true =
      Outcome.done ({ dbIdleW with idleConns := some [] }, [Effect.connect 9],
        Except.ok (Conn.ConnectFresh (zeroConn 9))) ∧
    PopConn dbCacheW true true true true =
      Outcome.done ({ dbCacheW with cacheConns := some [] }, [], Except.ok (freshConn 4)) :=
  ⟨(C7_sanitation_paths dbIdleW (zeroConn 9) true true true true).1 [] rfl rfl rfl,
   (C7_sanitation_paths dbCacheW (freshConn 4) true true true true).2 [] []
     (freshConn 4) [] rfl rfl rfl⟩

/-- Claim C8: tryReuse on a session already clean — no open transaction,
autocommit enabled, charset equal to the default — performs no backend
mutation call and returns no error, leaving the session unchanged. -/
theorem C8_tryReuse_idempotent (c : Conn) (rOk eOk sOk : Bool)
    (h1 : c.inTransaction = false) (h2 : c.autoCommit = true)
    (h3 : c.charset = DEFAULT_CHARSET) :
    tryReuse c rOk eOk sOk = (c, [], none) := by
  simp [tryReuse, tryReuse.tryReuseTail, tryReuse.tryReuseCharset, h1, h2, h3]

/-- Witness for C8 on a concrete clean session. -/
theorem C8_witness : tryReuse (freshConn 7) false false false = (freshConn 7, [], none) :=
  C8_tryReuse_idempotent (freshConn 7) false false false rfl rfl rfl

/-- Claim C9: releasing a nil session returns immediately and leaves the
whole pool (every field) unchanged, with no backend call. -/
theorem C9_push_nil_noop (db : DB) (err : Option KError) :
    PushConn db none err = Outcome.done (db, []) := rfl

/-- Claim C10: releasing a session after the pool was shut down (cache
channel detached) closes the session, returns without error, and leaves
every pool field unchanged: the capacity is silently dropped. -/
theorem C10_push_after_shutdown (db : DB) (c : Conn) (err : Option KError)
    (h : db.cacheConns = none) :
    PushConn db (some c) err = Outcome.done (db, [Effect.closeSess c.id]) := by
  simp [PushConn, h]

/-- Witness for C10 on the concrete detached pool. -/
theorem C10_witness :
    PushConn dbClosed (some (freshConn 2)) none =
      Outcome.done (dbClosed, [Effect.closeSess 2]) :=
  C10_push_after_shutdown dbClosed (freshConn 2) none rfl

end Kingshard
